import Mathlib

/-!
# Product admin console (`src/app.js`): collection state, search, sort, pagination

A shallow embedding of the state handling of `src/app.js`.

* JavaScript arrays are `List`s, the module-level `let` variables are the fields of `State`,
  and every handler is a function from the state before to the state after.
* Rendering (`renderTable`, `renderPagination`, `updatePaginationInfo`, button icons) writes
  to the document only and is left out of the state transformers; the entries that
  `renderPagination` writes and the text that `exportToCSV` builds are modelled on their own.
* Numbers: ids, page numbers and page sizes are `Int`; prices are `ℚ`; the result of
  `parseFloat` / `parseInt` is an `Option`, `none` standing for `NaN`; the conversion of a
  number to text is a parameter of the CSV export.
* Strings are `String`; `toLowerCase` is modelled on the ASCII range, and the order on
  strings is the lexicographic order on characters.
-/

namespace ProductAdmin

/-! ## Data model -/

/-- A category as returned by `GET /categories`. -/
structure Category where
  id : Int
  name : String
  deriving DecidableEq, Repr

/-- A product object. `categoryId` is absent on products coming from the server and appears
once the object spread of `saveProduct` has merged the update data into it; `extra`
stands for every other property of the object (slug, timestamps, ...). -/
structure Product where
  id : Int
  title : String
  price : ℚ
  description : String
  category : Option Category
  images : List String
  categoryId : Option Int
  extra : List (String × String)
  deriving DecidableEq

/-- The sortable columns (`sortOrder.field`). -/
inductive Field where
  | id
  | title
  | price
  | category
  deriving DecidableEq, Repr

/-- The sort direction (`sortOrder.direction`): `'asc'` or `'desc'`. -/
inductive Direction where
  | asc
  | desc
  deriving DecidableEq, Repr

/-- The object `sortOrder`; `none` is `null`. -/
structure SortOrder where
  field : Option Field
  direction : Option Direction
  deriving DecidableEq, Repr

/-- The module-level variables of `app.js`, together with the value of the search box
(`document.getElementById('searchInput').value`), which the save and create handlers read. -/
structure State where
  allProducts : List Product
  filteredProducts : List Product
  categories : List Category
  currentPage : Int
  itemsPerPage : Int
  sortOrder : SortOrder
  currentProductId : Option Int
  isEditMode : Bool
  searchInput : String
  deriving DecidableEq

/-! ## Strings -/

/-- `String.prototype.toLowerCase`, on the ASCII range. -/
def toLowerCase (s : String) : String :=
  String.mk (s.data.map Char.toLower)

/-- White space and line terminators, the characters `String.prototype.trim` strips. -/
def isTrimChar (c : Char) : Bool :=
  let n := c.toNat
  n = 0x09 || n = 0x0A || n = 0x0B || n = 0x0C || n = 0x0D || n = 0x20 || n = 0xA0 ||
  n = 0x1680 || (0x2000 ≤ n && n ≤ 0x200A) || n = 0x2028 || n = 0x2029 || n = 0x202F ||
  n = 0x205F || n = 0x3000 || n = 0xFEFF

/-- `String.prototype.trim`. -/
def trim (s : String) : String :=
  String.mk (((s.data.dropWhile isTrimChar).reverse.dropWhile isTrimChar).reverse)

/-- `s.includes(t)`: `t` occurs in `s` as a contiguous substring. -/
def includes (s t : String) : Bool :=
  s.data.tails.any (fun u => t.data.isPrefixOf u)

/-- The pieces of `s.split(',')` for a list of characters. -/
def splitCommaChars : List Char → List (List Char)
  | [] => [[]]
  | c :: cs =>
    if c = ',' then [] :: splitCommaChars cs
    else
      match splitCommaChars cs with
      | [] => [[c]]
      | h :: t => (c :: h) :: t

/-- `s.split(',')`. -/
def splitComma (s : String) : List String :=
  (splitCommaChars s.data).map String.mk

/-! ## Sorting -/

/-- The value of a property read off a product, `a[sortOrder.field]`. -/
inductive Value where
  | num (q : ℚ)
  | str (s : String)
  | obj
  deriving DecidableEq

/-- Property access `p[field]`. -/
def Product.get (p : Product) : Field → Value
  | Field.id => Value.num p.id
  | Field.title => Value.str p.title
  | Field.price => Value.num p.price
  | Field.category => Value.obj

/-- The operator `<` on two values of one property: numeric on numbers, lexicographic on
strings; two category objects (or `null`) never compare below one another. -/
def Value.lt : Value → Value → Bool
  | Value.num a, Value.num b => decide (a < b)
  | Value.str a, Value.str b => decide (a < b)
  | _, _ => false

/-- The operator `>`. -/
def Value.gt (a b : Value) : Bool := Value.lt b a

/-- The branch `if (typeof aValue === 'string')` of the comparator. -/
def Value.lower : Value → Value
  | Value.str s => Value.str (toLowerCase s)
  | v => v

/-- The comparator passed to `filteredProducts.sort` in `applySorting`. -/
def compareFn (field : Field) (direction : Direction) (a b : Product) : Int :=
  let aValue := (a.get field).lower
  let bValue := (b.get field).lower
  match direction with
  | Direction.asc => if aValue.gt bValue then 1 else if aValue.lt bValue then -1 else 0
  | Direction.desc => if aValue.lt bValue then 1 else if aValue.gt bValue then -1 else 0

/-- `Array.prototype.sort(cmp)`: a stable sort placing `a` before `b` when `cmp a b ≤ 0`. -/
def arraySort {α : Type} (cmp : α → α → Int) (l : List α) : List α :=
  l.insertionSort (fun a b => cmp a b ≤ 0)

/-- `applySorting()`. -/
def applySorting (s : State) : State :=
  match s.sortOrder.field, s.sortOrder.direction with
  | some field, some direction =>
    { s with filteredProducts := arraySort (compareFn field direction) s.filteredProducts }
  | _, _ => s

/-! ## Search -/

/-- `handleSearch(query)`. -/
def handleSearch (s : State) (query : String) : State :=
  let searchTerm := trim (toLowerCase query)
  let s1 : State :=
    if searchTerm = "" then { s with filteredProducts := s.allProducts }
    else { s with filteredProducts :=
            s.allProducts.filter (fun product => includes (toLowerCase product.title) searchTerm) }
  let s2 : State :=
    if s1.sortOrder.field.isSome && s1.sortOrder.direction.isSome then applySorting s1 else s1
  { s2 with currentPage := 1 }

/-- `handleSort(field)`. -/
def handleSort (s : State) (field : Field) : State :=
  let sortOrder : SortOrder :=
    if s.sortOrder.field = some field then
      if s.sortOrder.direction = some Direction.asc then
        { s.sortOrder with direction := some Direction.desc }
      else if s.sortOrder.direction = some Direction.desc then
        { field := none, direction := none }
      else
        { s.sortOrder with direction := some Direction.asc }
    else
      { field := some field, direction := some Direction.asc }
  applySorting { s with sortOrder := sortOrder }

/-! ## Pagination -/

/-- `Array.prototype.slice(start, end)`: a negative index counts from the end of the array,
and both indices are clamped to the array. -/
def slice {α : Type} (l : List α) (start stop : Int) : List α :=
  let len : Int := l.length
  let k : Int := if start < 0 then max (len + start) 0 else min start len
  let final : Int := if stop < 0 then max (len + stop) 0 else min stop len
  (l.drop k.toNat).take (final - k).toNat

/-- `getCurrentPageData()`. -/
def getCurrentPageData (s : State) : List Product :=
  let start := (s.currentPage - 1) * s.itemsPerPage
  let stop := start + s.itemsPerPage
  slice s.filteredProducts start stop

/-- `Math.ceil(length / itemsPerPage)`. For a page size of zero the quotient is `Infinity` or
`NaN`, rendered as `none`: every comparison of a page number against it is false. -/
def totalPages (length : Nat) (itemsPerPage : Int) : Option Int :=
  if itemsPerPage = 0 then none else some (-(Int.fdiv (-(length : Int)) itemsPerPage))

/-- `handlePageChange(page)`. -/
def handlePageChange (s : State) (page : Int) : State :=
  let beyond : Bool :=
    match totalPages s.filteredProducts.length s.itemsPerPage with
    | some t => decide (page > t)
    | none => false
  if page < 1 || beyond then s else { s with currentPage := page }

/-- `handleItemsPerPageChange(value)`. -/
def handleItemsPerPageChange (s : State) (value : Int) : State :=
  { s with itemsPerPage := value, currentPage := 1 }

/-! ## Detail, edit and create -/

/-- The body of a `PUT /products/{id}` or `POST /products` request (`updateData`,
`productData`). -/
structure ProductData where
  title : String
  price : ℚ
  description : String
  categoryId : Int
  images : List String
  deriving DecidableEq

/-- A request sent to the remote API. -/
inductive RemoteCall where
  | getProductById (id : Int)
  | updateProduct (id : Int) (data : ProductData)
  | createNewProduct (data : ProductData)
  deriving DecidableEq

/-- What a handler does besides changing the state: remote requests, toasts
(`showNotification(message, type)`) and the alert written into the detail dialog. -/
inductive Effect where
  | remote (call : RemoteCall)
  | notification (message : String) (type : String)
  | modalAlert (message : String)
  deriving DecidableEq

/-- The state after a handler has run to completion, and its effects in order. -/
structure Outcome where
  state : State
  effects : List Effect
  deriving DecidableEq

/-- The fields of the edit or create form as the handler reads them: the raw text of the
text inputs, `parseFloat` of the price input and `parseInt` of the category select. -/
structure FormInput where
  title : String
  price : Option ℚ
  description : String
  categoryId : Option Int
  imagesText : String
  deriving DecidableEq

/-- The placeholder image URL. -/
def placeholderImage : String := "https://via.placeholder.com/300"

/-- The expression `imagesText.split(',').map(url => url.trim()).filter(url => url)`. -/
def parseImages (imagesText : String) : List String :=
  ((splitComma imagesText).map trim).filter (fun url => url ≠ "")

/-- `showDetailModal(productId)`; `response` is the result of the request, `none` when it
fails. -/
def showDetailModal (s : State) (productId : Int) (response : Option Product) : Outcome :=
  let s1 : State := { s with currentProductId := some productId, isEditMode := false }
  match response with
  | some _ => ⟨s1, [Effect.remote (RemoteCall.getProductById productId)]⟩
  | none =>
    ⟨s1, [Effect.remote (RemoteCall.getProductById productId),
          Effect.modalAlert "Failed to load product details"]⟩

/-- The local update of `saveProduct` after a successful request: the object spread over
`allProducts[index]` and the category lookup. -/
def applyUpdate (s : State) (id : Int) (updateData : ProductData) : State :=
  let index := s.allProducts.findIdx (fun p => p.id = id)
  match s.allProducts[index]? with
  | none => s
  | some old =>
    let merged : Product :=
      { old with
        title := updateData.title, price := updateData.price,
        description := updateData.description, categoryId := some updateData.categoryId,
        images := updateData.images }
    let merged : Product :=
      match s.categories.find? (fun c => c.id = updateData.categoryId) with
      | some category => { merged with category := some category }
      | none => merged
    { s with allProducts := s.allProducts.set index merged }

/-- `saveProduct()`; `response` is the result of the update request, `none` when it fails. -/
def saveProduct (s : State) (form : FormInput) (response : Option Product) : Outcome :=
  match s.currentProductId with
  | none => ⟨s, []⟩
  | some currentProductId =>
    if currentProductId = 0 then ⟨s, []⟩
    else
      let title := trim form.title
      let description := trim form.description
      let imagesText := trim form.imagesText
      let images := if imagesText ≠ "" then parseImages imagesText else []
      let invalid : Outcome :=
        ⟨s, [Effect.notification "Please fill in all required fields" "warning"]⟩
      match form.price, form.categoryId with
      | some price, some categoryId =>
        if title = "" || price = 0 || description = "" || categoryId = 0 then invalid
        else
          let updateData : ProductData :=
            { title := title, price := price, description := description,
              categoryId := categoryId,
              images := if images.length > 0 then images else [placeholderImage] }
          let call := Effect.remote (RemoteCall.updateProduct currentProductId updateData)
          match response with
          | some _ =>
            ⟨handleSearch (applyUpdate s currentProductId updateData) s.searchInput,
              [call, Effect.notification "Product updated successfully!" "success"]⟩
          | none => ⟨s, [call, Effect.notification "Failed to update product" "error"]⟩
      | _, _ => invalid

/-- `createProduct()`; `response` is the result of the create request, `none` when it
fails. -/
def createProduct (s : State) (form : FormInput) (response : Option Product) : Outcome :=
  let title := trim form.title
  let description := trim form.description
  let imagesText := trim form.imagesText
  let images := if imagesText ≠ "" then parseImages imagesText else [placeholderImage]
  let invalid : Outcome :=
    ⟨s, [Effect.notification "Please fill in all required fields" "warning"]⟩
  match form.price, form.categoryId with
  | some price, some categoryId =>
    if title = "" || price = 0 || description = "" || categoryId = 0 then invalid
    else
      let productData : ProductData :=
        { title := title, price := price, description := description,
          categoryId := categoryId, images := images }
      let call := Effect.remote (RemoteCall.createNewProduct productData)
      match response with
      | some newProduct =>
        let newProduct : Product :=
          match s.categories.find? (fun c => c.id = categoryId) with
          | some category => { newProduct with category := some category }
          | none => newProduct
        ⟨handleSearch { s with allProducts := newProduct :: s.allProducts } s.searchInput,
          [call, Effect.notification "Product created successfully!" "success"]⟩
      | none => ⟨s, [call, Effect.notification "Failed to create product" "error"]⟩
  | _, _ => invalid

/-! ## Pagination control -/

/-- An entry pushed onto `pages` by `renderPagination`: the previous and next buttons with
their `disabled` class and the page they ask for, a plain link to the first or last page, the
`...` placeholder, and a numbered entry of the window with its `active` class. -/
inductive PageItem where
  | previous (disabled : Bool) (target : Int)
  | jump (page : Int)
  | ellipsis
  | number (page : Int) (active : Bool)
  | next (disabled : Bool) (target : Int)
  deriving DecidableEq

/-- The pair `(startPage, endPage)` computed by `renderPagination`. -/
def pageWindow (currentPage totalPages : Int) : Int × Int :=
  let maxVisiblePages : Int := 5
  let startPage := max 1 (currentPage - maxVisiblePages / 2)
  let endPage := min totalPages (startPage + maxVisiblePages - 1)
  let startPage :=
    if endPage - startPage < maxVisiblePages - 1 then max 1 (endPage - maxVisiblePages + 1)
    else startPage
  (startPage, endPage)

/-- The list `pages` built by `renderPagination` once `totalPages` is known; the loop
`for (i = startPage; i <= endPage; i++)` runs over `endPage - startPage + 1` pages. -/
def paginationItems (currentPage totalPages : Int) : List PageItem :=
  if totalPages ≤ 1 then []
  else
    let startPage := (pageWindow currentPage totalPages).1
    let endPage := (pageWindow currentPage totalPages).2
    [PageItem.previous (decide (currentPage = 1)) (currentPage - 1)]
    ++ (if startPage > 1 then
          [PageItem.jump 1] ++ (if startPage > 2 then [PageItem.ellipsis] else [])
        else [])
    ++ (List.range (endPage - startPage + 1).toNat).map
        (fun j : Nat =>
          PageItem.number (startPage + (j : Int)) (decide (startPage + (j : Int) = currentPage)))
    ++ (if endPage < totalPages then
          (if endPage < totalPages - 1 then [PageItem.ellipsis] else [])
            ++ [PageItem.jump totalPages]
        else [])
    ++ [PageItem.next (decide (currentPage = totalPages)) (currentPage + 1)]

/-- `renderPagination()`: the entries written into `paginationControls`. A page size of zero,
for which `totalPages` is `Infinity` or `NaN`, is left out (`none`). -/
def renderPagination (s : State) : Option (List PageItem) :=
  (totalPages s.filteredProducts.length s.itemsPerPage).map (paginationItems s.currentPage)

/-! ## CSV export -/

/-- `escapeCSV(text)` on a string: `text.replace(/"/g, '""')`. -/
def escapeCSV (text : String) : String :=
  String.mk (text.data.flatMap (fun c => if c = '"' then ['"', '"'] else [c]))

/-- `Array.prototype.join(separator)` on an array of strings. -/
def joinWith (separator : String) : List String → String
  | [] => ""
  | [x] => x
  | x :: y :: rest => x ++ separator ++ joinWith separator (y :: rest)

/-- The expression `product.category?.name || 'N/A'`. -/
def categoryNameOrNA (product : Product) : String :=
  match product.category with
  | some category => if category.name = "" then "N/A" else category.name
  | none => "N/A"

/-- One element of `rows` in `exportToCSV`; `numberToString` is the conversion of a number to
text that `join` applies to the id and the price. -/
def csvRow (numberToString : ℚ → String) (product : Product) : List String :=
  [numberToString product.id,
   "\"" ++ escapeCSV product.title ++ "\"",
   numberToString product.price,
   "\"" ++ escapeCSV (categoryNameOrNA product) ++ "\"",
   "\"" ++ escapeCSV product.description ++ "\""]

/-- The text `csvContent` of `exportToCSV`. -/
def csvContent (numberToString : ℚ → String) (currentData : List Product) : String :=
  let headers := ["ID", "Title", "Price", "Category", "Description"]
  let rows := currentData.map (csvRow numberToString)
  joinWith "\n" (joinWith "," headers :: rows.map (fun row => joinWith "," row))

/-- What `exportToCSV` leaves behind: the state, the text offered for download (if any) and
the toast. -/
structure ExportResult where
  state : State
  csv : Option String
  notice : Effect
  deriving DecidableEq

/-- `exportToCSV()`. -/
def exportToCSV (numberToString : ℚ → String) (s : State) : ExportResult :=
  let currentData := getCurrentPageData s
  if currentData.length = 0 then
    { state := s, csv := none, notice := Effect.notification "No data to export" "warning" }
  else
    { state := s, csv := some (csvContent numberToString currentData),
      notice := Effect.notification
        ("Exported " ++ numberToString currentData.length ++ " products successfully!")
        "success" }

/-! ## Runs of the four view handlers -/

/-- The state after a successful `initializeApp()` that loaded `products` and `cats`. -/
def initialState (products : List Product) (cats : List Category) : State :=
  { allProducts := products, filteredProducts := products, categories := cats,
    currentPage := 1, itemsPerPage := 10, sortOrder := { field := none, direction := none },
    currentProductId := none, isEditMode := false, searchInput := "" }

/-- A user action on the table view. -/
inductive Action where
  | search (query : String)
  | sort (field : Field)
  | page (target : Int)
  | pageSize (value : Int)
  deriving DecidableEq

/-- The handler an action triggers. -/
def step (s : State) : Action → State
  | Action.search query => handleSearch s query
  | Action.sort field => handleSort s field
  | Action.page target => handlePageChange s target
  | Action.pageSize value => handleItemsPerPageChange s value

/-- The state after a sequence of actions. -/
def run (s : State) (actions : List Action) : State :=
  actions.foldl step s

/-- The query of the most recent search among `actions` (applied after `q`). -/
def lastQuery (q : String) : List Action → String
  | [] => q
  | Action.search query :: rest => lastQuery query rest
  | _ :: rest => lastQuery q rest

/-! ## Specification-side definitions and sample states -/

/-- A product with the given id, title and price and nothing else. -/
def mkProduct (id : Int) (title : String) (price : ℚ) : Product :=
  { id := id, title := title, price := price, description := "", category := none,
    images := [], categoryId := none, extra := [] }

/-- The products of `all` whose lowercased title contains the trimmed, lowercased query, in
the order of `all`. -/
def matching (all : List Product) (query : String) : List Product :=
  all.filter (fun p => includes (toLowerCase p.title) (trim (toLowerCase query)))

/-- The order of two products by the value of a field: ids and prices as numbers, titles
after lowercasing; categories are not ordered, any two compare equal. -/
def keyLE : Field → Product → Product → Prop
  | Field.id, a, b => a.id ≤ b.id
  | Field.title, a, b => toLowerCase a.title ≤ toLowerCase b.title
  | Field.price, a, b => a.price ≤ b.price
  | Field.category, _, _ => True

/-- A list is ordered by a directive: non-decreasing for `asc`, non-increasing for `desc`. -/
def OrderedBy (field : Field) : Direction → List Product → Prop
  | Direction.asc, l => l.Pairwise (fun a b => keyLE field a b)
  | Direction.desc, l => l.Pairwise (fun a b => keyLE field b a)

/-- One product titled "Shirt", freshly loaded. -/
def searchExample : State := initialState [mkProduct 1 "Shirt" 10] []

/-- Three products shown two per page. -/
def pagingExample : State :=
  { initialState [mkProduct 1 "Shirt" 10, mkProduct 2 "Pants" 20, mkProduct 3 "Shoe" 5] [] with
    itemsPerPage := 2 }

/-- The view `[Shirt(10), Shoe(5)]` under the directive price ascending. -/
def sortExample : State :=
  { initialState [mkProduct 1 "Shirt" 10, mkProduct 3 "Shoe" 5] [] with
    sortOrder := { field := some Field.price, direction := some Direction.asc } }

/-- The re-derivation of the view from `all`: the products matching the query, in the order
of `all`, sorted by the directive when one is active. -/
def rederive (all : List Product) (query : String) (sortOrder : SortOrder) : List Product :=
  match sortOrder.field, sortOrder.direction with
  | some field, some direction => arraySort (compareFn field direction) (matching all query)
  | _, _ => matching all query

/-- The invariant of the view handlers: `allProducts` is the loaded list, the view is a
rearrangement of the products matching `query`, and it is ordered by the active directive. -/
def ViewInvariant (products : List Product) (query : String) (s : State) : Prop :=
  s.allProducts = products ∧
  s.filteredProducts.Perm (matching products query) ∧
  ∀ f d, s.sortOrder = { field := some f, direction := some d } →
    OrderedBy f d s.filteredProducts

/-- Two products of equal price, freshly loaded. -/
def tieExample : State :=
  initialState [mkProduct 1 "Hat" 5, mkProduct 2 "Cap" 5] []

/-- Two products loaded in ascending order of price. -/
def cycleExample : State :=
  initialState [mkProduct 1 "Shoe" 5, mkProduct 2 "Shirt" 10] []

/-- An effect is a request to the remote API. -/
def Effect.isRemote : Effect → Bool
  | Effect.remote _ => true
  | _ => false

/-- The handler issued a remote call. -/
def issuesRemoteCall (o : Outcome) : Bool :=
  o.effects.any Effect.isRemote

/-- The notice shown when the form check of `saveProduct` / `createProduct` fails. -/
def validationNotice : Effect :=
  Effect.notification "Please fill in all required fields" "warning"

/-- The condition on a submission as the specification words it: trimmed title and
description non-empty, `categoryId` a positive integer, price a valid positive number. -/
def strictlyValid (form : FormInput) : Prop :=
  trim form.title ≠ "" ∧ trim form.description ≠ "" ∧
  (∃ c : Int, form.categoryId = some c ∧ 0 < c) ∧
  (∃ p : ℚ, form.price = some p ∧ 0 < p)

/-- The condition on a submission as the code checks it (`!title || !price || !description
|| !categoryId`): trimmed title and description non-empty, `categoryId` and price numbers
other than zero. -/
def filledIn (form : FormInput) : Bool :=
  decide (trim form.title ≠ "") && decide (trim form.description ≠ "") &&
  (match form.categoryId with
    | some c => decide (c ≠ 0)
    | none => false) &&
  (match form.price with
    | some p => decide (p ≠ 0)
    | none => false)

/-- The part of the state the specification calls the collection state. -/
def collectionState (s : State) : List Product × List Product × Int × Int × SortOrder :=
  (s.allProducts, s.filteredProducts, s.currentPage, s.itemsPerPage, s.sortOrder)

/-- A complete submission whose price is negative. -/
def negativePriceForm : FormInput :=
  { title := "Hat", price := some (-5), description := "A hat", categoryId := some 1,
    imagesText := "" }

/-- A submission with an empty title. -/
def emptyTitleForm : FormInput :=
  { title := "", price := some 10, description := "A hat", categoryId := some 1,
    imagesText := "" }

/-- The sample state with the product of id 1 opened in the detail dialog. -/
def editExample : State :=
  { pagingExample with currentProductId := some 1 }

/-- The category lookup of `createProduct`: the response with its category replaced by the
first loaded category of the given id, when there is one. -/
def attachCategory (categories : List Category) (categoryId : Int) (p : Product) : Product :=
  match categories.find? (fun c => c.id = categoryId) with
  | some category => { p with category := some category }
  | none => p

/-- Three products and two categories loaded, the product of id 2 opened in the detail
dialog. -/
def catalogExample : State :=
  { initialState [mkProduct 1 "Shirt" 10, mkProduct 2 "Pants" 20, mkProduct 3 "Shoe" 5]
      [{ id := 1, name := "Clothes" }, { id := 2, name := "Shoes" }] with
    currentProductId := some 2 }

/-- A complete submission: title "Pants", price 25, category 1, no image URLs. -/
def pantsForm : FormInput :=
  { title := " Pants ", price := some 25, description := "Blue", categoryId := some 1,
    imagesText := "" }

/-- A complete submission for a new product. -/
def hatForm : FormInput :=
  { title := "Hat", price := some 7, description := "Warm", categoryId := some 2,
    imagesText := "" }

/-- The images list the specification asks for: the pieces of the input between commas,
trimmed, the empty ones dropped, and the placeholder alone when nothing is left. -/
def expectedImages (imagesText : String) : List String :=
  if parseImages (trim imagesText) = [] then [placeholderImage]
  else parseImages (trim imagesText)

/-- A complete submission whose image field holds only commas and blanks. -/
def blankImagesForm : FormInput :=
  { title := "Hat", price := some 7, description := "Warm", categoryId := some 2,
    imagesText := " , ," }

/-- The text of a whole number, as `join` prints the ids and prices of the sample data. -/
def wholeNumberToString (q : ℚ) : String :=
  toString q.num

/-- The line of a product in the CSV text as the specification describes it: id, quoted
title, unquoted price, quoted category name (or N/A), quoted description, joined by commas. -/
def csvLine (numberToString : ℚ → String) (p : Product) : String :=
  numberToString p.id ++ "," ++ "\"" ++ escapeCSV p.title ++ "\"" ++ "," ++
  numberToString p.price ++ "," ++ "\"" ++ escapeCSV (categoryNameOrNA p) ++ "\"" ++ "," ++
  "\"" ++ escapeCSV p.description ++ "\""

/-- Two products on one page, one with double quotes in its title and its description. -/
def csvExample : State :=
  initialState
    [{ mkProduct 1 "Shirt" 10 with description := "Plain" },
     { mkProduct 2 "The \"best\" shoe" 5 with
       description := "Says \"hi\"", category := some { id := 2, name := "Shoes" } }] []

/-! ## Theorems -/

/-! ### Sorting lemmas -/

theorem mem_arraySort {α : Type} (cmp : α → α → Int) (l : List α) (x : α) :
    x ∈ arraySort cmp l ↔ x ∈ l := by
  unfold arraySort
  exact List.mem_insertionSort _

theorem arraySort_perm {α : Type} (cmp : α → α → Int) (l : List α) :
    (arraySort cmp l).Perm l := by
  unfold arraySort
  exact List.perm_insertionSort _ l

theorem applySorting_filtered_perm (s : State) :
    (applySorting s).filteredProducts.Perm s.filteredProducts := by
  unfold applySorting
  split
  · exact arraySort_perm _ _
  · exact List.Perm.refl _

theorem keyLE_total (f : Field) (a b : Product) : keyLE f a b ∨ keyLE f b a := by
  cases f <;> simp only [keyLE] <;> first | exact le_total _ _ | exact Or.inl trivial

theorem keyLE_trans (f : Field) (a b c : Product) (h1 : keyLE f a b) (h2 : keyLE f b c) :
    keyLE f a c := by
  cases f <;> simp only [keyLE] at * <;> exact le_trans h1 h2

theorem compareFn_asc_le (f : Field) (a b : Product) :
    compareFn f Direction.asc a b ≤ 0 ↔ keyLE f a b := by
  cases f <;> simp only [compareFn, Product.get, Value.lower, Value.gt, Value.lt, keyLE] <;>
    split_ifs <;> simp_all

theorem compareFn_desc_le (f : Field) (a b : Product) :
    compareFn f Direction.desc a b ≤ 0 ↔ keyLE f b a := by
  cases f <;> simp only [compareFn, Product.get, Value.lower, Value.gt, Value.lt, keyLE] <;>
    split_ifs <;> simp_all

theorem Value.lt_irrefl (v : Value) : Value.lt v v = false := by
  cases v <;> simp [Value.lt]

theorem compareFn_same_value (f : Field) (d : Direction) (a b : Product)
    (h : (a.get f).lower = (b.get f).lower) : compareFn f d a b = 0 := by
  cases d <;> simp [compareFn, Value.gt, h, Value.lt_irrefl]

theorem OrderedBy_arraySort (f : Field) (d : Direction) (l : List Product) :
    OrderedBy f d (arraySort (compareFn f d) l) := by
  unfold arraySort
  cases d
  · haveI : IsTotal Product (fun a b => compareFn f Direction.asc a b ≤ 0) :=
      ⟨fun a b => by simpa only [compareFn_asc_le] using keyLE_total f a b⟩
    haveI : IsTrans Product (fun a b => compareFn f Direction.asc a b ≤ 0) :=
      ⟨fun a b c => by simpa only [compareFn_asc_le] using keyLE_trans f a b c⟩
    exact (List.sorted_insertionSort (fun a b => compareFn f Direction.asc a b ≤ 0) l).imp
      (fun {a b} h => (compareFn_asc_le f a b).mp h)
  · haveI : IsTotal Product (fun a b => compareFn f Direction.desc a b ≤ 0) :=
      ⟨fun a b => by simpa only [compareFn_desc_le] using keyLE_total f b a⟩
    haveI : IsTrans Product (fun a b => compareFn f Direction.desc a b ≤ 0) :=
      ⟨fun a b c h1 h2 => by
        rw [compareFn_desc_le] at *
        exact keyLE_trans f c b a h2 h1⟩
    exact (List.sorted_insertionSort (fun a b => compareFn f Direction.desc a b ≤ 0) l).imp
      (fun {a b} h => (compareFn_desc_le f a b).mp h)

theorem filter_orderedInsert {α : Type} (r : α → α → Prop) [DecidableRel r] (p : α → Bool)
    (a : α) (l : List α) (h : ∀ b ∈ l, p a = true → p b = true → r a b) :
    (l.orderedInsert r a).filter p = (a :: l).filter p := by
  induction l with
  | nil => simp
  | cons b l ih =>
    by_cases hab : r a b
    · simp [List.orderedInsert, hab]
    · have ih2 := ih (fun c hc => h c (List.mem_cons_of_mem _ hc))
      have hnot : ¬ (p a = true ∧ p b = true) :=
        fun hp => hab (h b (List.mem_cons_self _ _) hp.1 hp.2)
      simp only [List.orderedInsert, hab, if_false]
      rw [List.filter_cons, ih2]
      cases hpa : p a <;> cases hpb : p b <;> simp_all [List.filter_cons]

theorem filter_insertionSort {α : Type} (r : α → α → Prop) [DecidableRel r] (p : α → Bool)
    (h : ∀ a b, p a = true → p b = true → r a b) (l : List α) :
    (l.insertionSort r).filter p = l.filter p := by
  induction l with
  | nil => simp
  | cons a l ih =>
    rw [List.insertionSort, filter_orderedInsert r p a _ (fun b _ => h a b),
      List.filter_cons, List.filter_cons, ih]

theorem filter_arraySort (f : Field) (d : Direction) (v : Value) (l : List Product) :
    (arraySort (compareFn f d) l).filter (fun y => decide ((y.get f).lower = v))
      = l.filter (fun y => decide ((y.get f).lower = v)) := by
  unfold arraySort
  apply filter_insertionSort
  intro a b ha hb
  have ha2 : (a.get f).lower = v := of_decide_eq_true ha
  have hb2 : (b.get f).lower = v := of_decide_eq_true hb
  exact le_of_eq (compareFn_same_value f d a b (ha2.trans hb2.symm))

/-! ### Search -/

theorem includes_empty (s : String) : includes s "" = true := by
  unfold includes
  rw [List.any_eq_true]
  refine ⟨s.data, ?_, ?_⟩
  · simp
  · simp

theorem handleSearch_filtered_perm (s : State) (query : String) :
    (handleSearch s query).filteredProducts.Perm (matching s.allProducts query) := by
  have hbase : (if trim (toLowerCase query) = "" then s.allProducts
      else s.allProducts.filter
        (fun p => includes (toLowerCase p.title) (trim (toLowerCase query))))
      = matching s.allProducts query := by
    unfold matching
    split
    · next h => rw [h]; simp [includes_empty]
    · rfl
  unfold handleSearch
  simp only []
  split
  · next h =>
    split
    · exact (applySorting_filtered_perm _).trans (by simpa [h] using (List.Perm.of_eq hbase))
    · simpa [h] using (List.Perm.of_eq hbase)
  · next h =>
    split
    · exact (applySorting_filtered_perm _).trans (by simpa [h] using (List.Perm.of_eq hbase))
    · simpa [h] using (List.Perm.of_eq hbase)

/-- C1, as stated, fails: with the single product "Shirt" loaded, `handleSearch(" sh")` keeps
"Shirt" although its title does not contain the query `" sh"` (with its leading blank) in
any letter case, so the result is not the set of products whose title contains the query. -/
theorem handleSearch_untrimmed_query_counterexample :
    ¬ (∀ p : Product, p ∈ (handleSearch searchExample " sh").filteredProducts ↔
        (p ∈ searchExample.allProducts ∧
          includes (toLowerCase p.title) (toLowerCase " sh") = true)) := by
  intro h
  have h1 := (h (mkProduct 1 "Shirt" 10)).mp (by decide)
  exact absurd h1.2 (by decide)

/-- C1, amended: for every state and every query, after `handleSearch(query)` a product is in
`filteredProducts` exactly when it is in `allProducts` and its lowercased title contains the
lowercased and trimmed query (set equality, whatever the sort directive). -/
theorem handleSearch_mem_iff (s : State) (query : String) (p : Product) :
    p ∈ (handleSearch s query).filteredProducts ↔
      (p ∈ s.allProducts ∧
        includes (toLowerCase p.title) (trim (toLowerCase query)) = true) := by
  rw [(handleSearch_filtered_perm s query).mem_iff, matching, List.mem_filter]

/-! ### Pagination -/

theorem slice_length_le {α : Type} (l : List α) (start k : Int) (hk : 0 ≤ k) :
    ((slice l start (start + k)).length : Int) ≤ k := by
  unfold slice
  simp only [List.length_take, List.length_drop]
  have h1 : (((if start + k < 0 then max ((l.length : Int) + (start + k)) 0
                else min (start + k) (l.length : Int)) -
              (if start < 0 then max ((l.length : Int) + start) 0
                else min start (l.length : Int))).toNat : Int) ≤ k := by
    split_ifs <;> omega
  omega

theorem slice_of_nat {α : Type} (l : List α) (a k : Nat) :
    slice l (a : Int) ((a : Int) + (k : Int)) = (l.drop a).take k := by
  unfold slice
  have h1 : ¬ ((a : Int) < 0) := by omega
  have h2 : ¬ ((a : Int) + (k : Int) < 0) := by omega
  simp only [h1, h2, if_false]
  by_cases h : a ≤ l.length
  · have e1 : (min (a : Int) (l.length : Int)).toNat = a := by omega
    rw [e1, List.take_eq_take]
    simp only [List.length_drop]
    omega
  · have e1 : (min (a : Int) (l.length : Int)).toNat = l.length := by omega
    rw [e1, List.drop_eq_nil_of_le (Nat.le_refl _), List.drop_eq_nil_of_le (by omega)]
    simp

theorem flatMap_pages {α : Type} (l : List α) (k m : Nat) :
    (List.range m).flatMap (fun i => (l.drop (i * k)).take k) = l.take (m * k) := by
  induction m with
  | zero => simp
  | succ m ih =>
    rw [List.range_succ, List.flatMap_append, ih, List.flatMap_singleton, Nat.succ_mul,
      List.take_add]

theorem totalPages_eq_ceil (n : Nat) (k : Int) (hk : 1 ≤ k) :
    totalPages n k = some ⌈(n : ℚ) / (k : ℚ)⌉ := by
  unfold totalPages
  have hk0 : k ≠ 0 := by omega
  rw [if_neg hk0, Int.fdiv_eq_ediv _ (by omega)]
  congr 1
  obtain ⟨d, rfl⟩ : ∃ d : Nat, k = (d : Int) := ⟨k.toNat, by omega⟩
  have := Rat.floor_intCast_div_natCast (-(n : Int)) d
  rw [← this, ← Int.ceil_neg]
  congr 1
  push_cast
  ring

theorem length_le_ceil_mul (n : Nat) (k : Int) (hk : 1 ≤ k) :
    (n : Int) ≤ ⌈(n : ℚ) / (k : ℚ)⌉ * k := by
  have hkq : (0 : ℚ) < (k : ℚ) := by exact_mod_cast (by omega : (0 : Int) < k)
  have h1 : (n : ℚ) / (k : ℚ) ≤ (⌈(n : ℚ) / (k : ℚ)⌉ : ℚ) := Int.le_ceil _
  have h2 : (n : ℚ) ≤ (⌈(n : ℚ) / (k : ℚ)⌉ : ℚ) * (k : ℚ) := (div_le_iff₀ hkq).mp h1
  exact_mod_cast h2

/-- C2: for every page size `itemsPerPage ≥ 1` and every `filteredProducts`,
`getCurrentPageData` returns at most `itemsPerPage` items whatever the current page, and the
slices of pages `1 .. ceil(|filteredProducts| / itemsPerPage)`, concatenated in page order,
are exactly `filteredProducts`. -/
theorem getCurrentPageData_partition (s : State) (h : 1 ≤ s.itemsPerPage) :
    (∀ page : Int,
      ((getCurrentPageData { s with currentPage := page }).length : Int) ≤ s.itemsPerPage) ∧
    (List.range (⌈(s.filteredProducts.length : ℚ) / (s.itemsPerPage : ℚ)⌉).toNat).flatMap
        (fun i => getCurrentPageData { s with currentPage := (i : Int) + 1 })
      = s.filteredProducts := by
  constructor
  · intro page
    unfold getCurrentPageData
    exact slice_length_le _ _ _ (le_trans (by decide) h)
  · have h3 := length_le_ceil_mul s.filteredProducts.length s.itemsPerPage h
    have h4 : 0 ≤ ⌈(s.filteredProducts.length : ℚ) / (s.itemsPerPage : ℚ)⌉ := by
      apply Int.ceil_nonneg
      apply div_nonneg
      · exact Nat.cast_nonneg _
      · exact_mod_cast (by omega : (0 : Int) ≤ s.itemsPerPage)
    generalize ⌈(s.filteredProducts.length : ℚ) / (s.itemsPerPage : ℚ)⌉ = c at h3 h4 ⊢
    obtain ⟨k, hk⟩ : ∃ k : Nat, s.itemsPerPage = (k : Int) := ⟨s.itemsPerPage.toNat, by omega⟩
    have hfun : (fun i : Nat => getCurrentPageData { s with currentPage := (i : Int) + 1 })
        = fun i : Nat => (s.filteredProducts.drop (i * k)).take k := by
      funext i
      unfold getCurrentPageData
      simp only [hk]
      have e : ((i : Int) + 1 - 1) * (k : Int) = ((i * k : Nat) : Int) := by push_cast; ring
      rw [e, slice_of_nat]
    rw [hfun, flatMap_pages]
    apply List.take_of_length_le
    rw [hk] at h3
    have h5 : ((c.toNat : Nat) : Int) = c := Int.toNat_of_nonneg h4
    zify
    rw [h5]
    exact h3

/-- C2 at three products shown two per page: the page size is at least one, both pages hold
at most two rows (the first `[Shirt, Pants]`, the second `[Shoe]`) and together they give the
whole view. -/
theorem getCurrentPageData_partition_witness :
    1 ≤ pagingExample.itemsPerPage ∧
    getCurrentPageData { pagingExample with currentPage := 1 }
      = [mkProduct 1 "Shirt" 10, mkProduct 2 "Pants" 20] ∧
    getCurrentPageData { pagingExample with currentPage := 2 } = [mkProduct 3 "Shoe" 5] ∧
    ((∀ page : Int,
      ((getCurrentPageData { pagingExample with currentPage := page }).length : Int)
        ≤ pagingExample.itemsPerPage) ∧
    (List.range (⌈(pagingExample.filteredProducts.length : ℚ) /
          (pagingExample.itemsPerPage : ℚ)⌉).toNat).flatMap
        (fun i => getCurrentPageData { pagingExample with currentPage := (i : Int) + 1 })
      = pagingExample.filteredProducts) :=
  ⟨by decide, by decide, by decide, getCurrentPageData_partition pagingExample (by decide)⟩

/-! ### Sort -/

/-- C3: under an active directive `{field, direction}`, `applySorting` leaves
`filteredProducts` a permutation of its previous contents, ordered by the field's value
(titles after lowercasing; non-decreasing for `asc`, non-increasing for `desc`), and for
every value the products carrying that value keep their previous relative order; the view
`[Shirt(10), Shoe(5)]` sorted by price ascending becomes `[Shoe(5), Shirt(10)]`. -/
theorem applySorting_stable_sort (s : State) (f : Field) (d : Direction)
    (h : s.sortOrder = { field := some f, direction := some d }) :
    (applySorting s).filteredProducts.Perm s.filteredProducts ∧
    OrderedBy f d (applySorting s).filteredProducts ∧
    (∀ v : Value,
      (applySorting s).filteredProducts.filter (fun y => decide ((y.get f).lower = v))
        = s.filteredProducts.filter (fun y => decide ((y.get f).lower = v))) ∧
    (applySorting sortExample).filteredProducts
      = [mkProduct 3 "Shoe" 5, mkProduct 1 "Shirt" 10] := by
  have e : (applySorting s).filteredProducts = arraySort (compareFn f d) s.filteredProducts := by
    unfold applySorting
    rw [h]
  rw [e]
  exact ⟨arraySort_perm _ _, OrderedBy_arraySort f d _, fun v => filter_arraySort f d v _,
    by decide⟩

/-- C3 at the view `[Shirt(10), Shoe(5)]` with the directive price ascending. -/
theorem applySorting_stable_sort_witness :
    sortExample.sortOrder = { field := some Field.price, direction := some Direction.asc } ∧
    (applySorting sortExample).filteredProducts.Perm sortExample.filteredProducts ∧
    OrderedBy Field.price Direction.asc (applySorting sortExample).filteredProducts :=
  ⟨by decide, (applySorting_stable_sort sortExample Field.price Direction.asc (by decide)).1,
    (applySorting_stable_sort sortExample Field.price Direction.asc (by decide)).2.1⟩

/-! ### Reachable states of the view -/

theorem applySorting_allProducts (s : State) : (applySorting s).allProducts = s.allProducts := by
  unfold applySorting
  split <;> rfl

theorem applySorting_sortOrder (s : State) : (applySorting s).sortOrder = s.sortOrder := by
  unfold applySorting
  split <;> rfl

theorem applySorting_ordered (s : State) (f : Field) (d : Direction)
    (h : s.sortOrder = { field := some f, direction := some d }) :
    OrderedBy f d (applySorting s).filteredProducts := by
  unfold applySorting
  rw [h]
  exact OrderedBy_arraySort f d _

theorem handleSearch_eq (s : State) (query : String) :
    handleSearch s query =
      { (if s.sortOrder.field.isSome && s.sortOrder.direction.isSome then
          applySorting { s with filteredProducts := matching s.allProducts query }
         else { s with filteredProducts := matching s.allProducts query }) with
        currentPage := 1 } := by
  unfold handleSearch matching
  by_cases h : trim (toLowerCase query) = ""
  · simp [h, includes_empty]
  · simp [h]

theorem handleSearch_allProducts (s : State) (query : String) :
    (handleSearch s query).allProducts = s.allProducts := by
  rw [handleSearch_eq]
  split <;> simp [applySorting_allProducts]

theorem handleSearch_sortOrder (s : State) (query : String) :
    (handleSearch s query).sortOrder = s.sortOrder := by
  rw [handleSearch_eq]
  split <;> simp [applySorting_sortOrder]

theorem handleSearch_currentPage (s : State) (query : String) :
    (handleSearch s query).currentPage = 1 := by
  rw [handleSearch_eq]

theorem handleSearch_filtered (s : State) (query : String) :
    (handleSearch s query).filteredProducts = rederive s.allProducts query s.sortOrder := by
  rw [handleSearch_eq]
  unfold rederive applySorting
  rcases hf : s.sortOrder.field with _ | f <;> rcases hd : s.sortOrder.direction with _ | d <;>
    simp [hf, hd]

theorem handleSearch_ordered (s : State) (query : String) (f : Field) (d : Direction)
    (h : (handleSearch s query).sortOrder = { field := some f, direction := some d }) :
    OrderedBy f d (handleSearch s query).filteredProducts := by
  rw [handleSearch_sortOrder] at h
  rw [handleSearch_filtered, rederive, h]
  exact OrderedBy_arraySort f d _

theorem handleSort_allProducts (s : State) (field : Field) :
    (handleSort s field).allProducts = s.allProducts := by
  unfold handleSort
  rw [applySorting_allProducts]

theorem handleSort_filtered_perm (s : State) (field : Field) :
    (handleSort s field).filteredProducts.Perm s.filteredProducts := by
  unfold handleSort
  exact applySorting_filtered_perm _

theorem handleSort_ordered (s : State) (field f : Field) (d : Direction)
    (h : (handleSort s field).sortOrder = { field := some f, direction := some d }) :
    OrderedBy f d (handleSort s field).filteredProducts := by
  unfold handleSort at h ⊢
  rw [applySorting_sortOrder] at h
  exact applySorting_ordered _ f d h

theorem ViewInvariant_step (products : List Product) (query : String) (s : State)
    (a : Action) (h : ViewInvariant products query s) :
    ViewInvariant products (lastQuery query [a]) (step s a) := by
  obtain ⟨h1, h2, h3⟩ := h
  cases a with
  | search q =>
    refine ⟨?_, ?_, ?_⟩
    · simp only [step]; rw [handleSearch_allProducts, h1]
    · simp only [step, lastQuery]
      have := handleSearch_filtered_perm s q
      rwa [h1] at this
    · intro f d hfd
      exact handleSearch_ordered s q f d hfd
  | sort field =>
    refine ⟨?_, ?_, ?_⟩
    · simp only [step]; rw [handleSort_allProducts, h1]
    · simp only [step, lastQuery]
      exact (handleSort_filtered_perm s field).trans h2
    · intro f d hfd
      exact handleSort_ordered s field f d hfd
  | page target =>
    have e : step s (Action.page target) = s ∨
        step s (Action.page target) = { s with currentPage := target } := by
      simp only [step, handlePageChange]
      split
      · exact Or.inl rfl
      · exact Or.inr rfl
    rcases e with e | e <;> rw [e] <;> exact ⟨h1, h2, h3⟩
  | pageSize value => exact ⟨h1, h2, h3⟩

theorem ViewInvariant_run (products : List Product) (actions : List Action) :
    ∀ (query : String) (s : State), ViewInvariant products query s →
      ViewInvariant products (lastQuery query actions) (run s actions) := by
  induction actions with
  | nil => intro query s h; exact h
  | cons a rest ih =>
    intro query s h
    have h1 := ViewInvariant_step products query s a h
    have h2 := ih _ _ h1
    have e : lastQuery (lastQuery query [a]) rest = lastQuery query (a :: rest) := by
      cases a <;> rfl
    rw [e] at h2
    exact h2

theorem ViewInvariant_initial (products : List Product) (cats : List Category) :
    ViewInvariant products "" (initialState products cats) := by
  refine ⟨rfl, ?_, ?_⟩
  · have : matching products "" = products := by
      unfold matching
      have e : trim (toLowerCase "") = "" := by decide
      rw [e]
      simp [includes_empty]
    rw [this]
    exact List.Perm.refl _
  · intro f d h
    simp [initialState] at h

/-- C4, as stated, fails. From two products loaded as `[Shoe(5), Shirt(10)]`, three
`handleSort('price')` actions end with the directive `{null, null}` and the view
`[Shirt(10), Shoe(5)]`, not the order of `allProducts`. From `[Hat(5), Cap(5)]`, sorting by id
twice and then by price ends with the directive (price, asc) and the view `[Cap, Hat]`, while
the matching products of `allProducts` sorted by price are `[Hat, Cap]`. -/
theorem run_not_rederive_counterexample :
    ¬ (∀ actions : List Action,
        (run cycleExample actions).filteredProducts
          = rederive cycleExample.allProducts (lastQuery "" actions)
              (run cycleExample actions).sortOrder) ∧
    ¬ (∀ actions : List Action,
        (run tieExample actions).filteredProducts
          = rederive tieExample.allProducts (lastQuery "" actions)
              (run tieExample actions).sortOrder) := by
  constructor
  · intro h
    exact absurd (h [Action.sort Field.price, Action.sort Field.price, Action.sort Field.price])
      (by decide)
  · intro h
    exact absurd (h [Action.sort Field.id, Action.sort Field.id, Action.sort Field.price])
      (by decide)

/-- C4, amended: in every state reached from initialization by any sequence of
`handleSearch`, `handleSort`, `handlePageChange` and `handleItemsPerPageChange` actions,
`allProducts` is the loaded list, `filteredProducts` is a rearrangement of the products of
`allProducts` matching the most recent search query, and it is ordered by the sort directive
whenever one is active; and a `handleSearch` run in such a state yields exactly the
re-derivation: the matching products in the order of `allProducts`, sorted by the directive
when one is active. -/
theorem run_view_invariant (products : List Product) (cats : List Category)
    (actions : List Action) :
    (run (initialState products cats) actions).allProducts = products ∧
    (run (initialState products cats) actions).filteredProducts.Perm
      (matching products (lastQuery "" actions)) ∧
    (∀ f d, (run (initialState products cats) actions).sortOrder
        = { field := some f, direction := some d } →
      OrderedBy f d (run (initialState products cats) actions).filteredProducts) ∧
    (∀ query : String,
      (run (initialState products cats) (actions ++ [Action.search query])).filteredProducts
        = rederive products query (run (initialState products cats) actions).sortOrder) := by
  have h := ViewInvariant_run products actions "" _ (ViewInvariant_initial products cats)
  refine ⟨h.1, h.2.1, h.2.2, ?_⟩
  intro query
  simp only [run, List.foldl_append, List.foldl_cons, List.foldl_nil, step]
  rw [handleSearch_filtered]
  have := h.1
  simp only [run] at this
  rw [this]

/-- C4 (amended) at `[Hat(5), Cap(5)]` after sorting by id twice and by price once: the
directive is (price, asc), the view `[Cap, Hat]` is ordered by price and is a rearrangement
of the products matching the empty query. -/
theorem run_view_invariant_witness :
    (run tieExample [Action.sort Field.id, Action.sort Field.id,
        Action.sort Field.price]).sortOrder
      = { field := some Field.price, direction := some Direction.asc } ∧
    (run tieExample [Action.sort Field.id, Action.sort Field.id,
        Action.sort Field.price]).filteredProducts
      = [mkProduct 2 "Cap" 5, mkProduct 1 "Hat" 5] ∧
    OrderedBy Field.price Direction.asc
      (run (initialState [mkProduct 1 "Hat" 5, mkProduct 2 "Cap" 5] [])
        [Action.sort Field.id, Action.sort Field.id,
          Action.sort Field.price]).filteredProducts :=
  ⟨by decide, by decide,
    (run_view_invariant [mkProduct 1 "Hat" 5, mkProduct 2 "Cap" 5] []
      [Action.sort Field.id, Action.sort Field.id, Action.sort Field.price]).2.2.1
      Field.price Direction.asc (by decide)⟩

/-! ### Sort cycle -/

theorem pairwise_price_gt_of_ge {l : List Product}
    (h : l.Pairwise (fun a b => b.price ≤ a.price)) (hn : (l.map (fun p => p.price)).Nodup) :
    l.Pairwise (fun a b => b.price < a.price) := by
  have hne : l.Pairwise (fun a b => a.price ≠ b.price) := by
    exact List.pairwise_map.mp hn
  exact (h.and hne).imp (fun {a b} hab => lt_of_le_of_ne hab.1 (Ne.symm hab.2))

theorem pairwise_price_lt_of_le {l : List Product}
    (h : l.Pairwise (fun a b => a.price ≤ b.price)) (hn : (l.map (fun p => p.price)).Nodup) :
    l.Pairwise (fun a b => a.price < b.price) := by
  have hne : l.Pairwise (fun a b => a.price ≠ b.price) := by
    exact List.pairwise_map.mp hn
  exact (h.and hne).imp (fun {a b} hab => lt_of_le_of_ne hab.1 hab.2)

theorem arraySort_desc_asc_reverse (l : List Product)
    (hn : (l.map (fun p => p.price)).Nodup) :
    arraySort (compareFn Field.price Direction.desc)
        (arraySort (compareFn Field.price Direction.asc) l)
      = (arraySort (compareFn Field.price Direction.asc) l).reverse := by
  have hA := OrderedBy_arraySort Field.price Direction.asc l
  have hpA := arraySort_perm (compareFn Field.price Direction.asc) l
  have hnA : ((arraySort (compareFn Field.price Direction.asc) l).map
      (fun p => p.price)).Nodup := (hpA.map _).nodup_iff.mpr hn
  generalize arraySort (compareFn Field.price Direction.asc) l = A at hA hpA hnA
  have hD := OrderedBy_arraySort Field.price Direction.desc A
  have hpD := arraySort_perm (compareFn Field.price Direction.desc) A
  have hnD : ((arraySort (compareFn Field.price Direction.desc) A).map
      (fun p => p.price)).Nodup := (hpD.map _).nodup_iff.mpr hnA
  generalize arraySort (compareFn Field.price Direction.desc) A = D at hD hpD hnD
  simp only [OrderedBy, keyLE] at hA hD
  have h1 : D.Pairwise (fun a b => b.price < a.price) := pairwise_price_gt_of_ge hD hnD
  have h2 : A.reverse.Pairwise (fun a b => b.price < a.price) := by
    rw [List.pairwise_reverse]
    exact pairwise_price_lt_of_le hA hnA
  haveI : IsAntisymm Product (fun a b => b.price < a.price) :=
    ⟨fun a b hab hba => absurd hab (not_lt_of_gt hba)⟩
  exact List.eq_of_perm_of_sorted (hpD.trans (List.reverse_perm A).symm) h1 h2

/-- C5: starting from the directive `{null, null}`, the first `handleSort('price')` leaves
the directive at (price, asc), the second at (price, desc), the third back at `{null, null}`;
and when the prices in `filteredProducts` are pairwise distinct, the view after the second
action is the exact reverse of the view after the first. -/
theorem handleSort_price_cycle (s : State) (h : s.sortOrder = { field := none, direction := none }) :
    (handleSort s Field.price).sortOrder
      = { field := some Field.price, direction := some Direction.asc } ∧
    (handleSort (handleSort s Field.price) Field.price).sortOrder
      = { field := some Field.price, direction := some Direction.desc } ∧
    (handleSort (handleSort (handleSort s Field.price) Field.price) Field.price).sortOrder
      = { field := none, direction := none } ∧
    ((s.filteredProducts.map (fun p => p.price)).Nodup →
      (handleSort (handleSort s Field.price) Field.price).filteredProducts
        = (handleSort s Field.price).filteredProducts.reverse) := by
  have e1 : handleSort s Field.price
      = { s with
          sortOrder := { field := some Field.price, direction := some Direction.asc },
          filteredProducts :=
            arraySort (compareFn Field.price Direction.asc) s.filteredProducts } := by
    simp [handleSort, applySorting, h]
  have e2 : handleSort (handleSort s Field.price) Field.price
      = { s with
          sortOrder := { field := some Field.price, direction := some Direction.desc },
          filteredProducts :=
            arraySort (compareFn Field.price Direction.desc)
              (arraySort (compareFn Field.price Direction.asc) s.filteredProducts) } := by
    rw [e1]
    simp [handleSort, applySorting]
  refine ⟨by rw [e1], by rw [e2], ?_, ?_⟩
  · rw [e2]
    simp [handleSort, applySorting]
  · intro hn
    rw [e2, e1]
    exact arraySort_desc_asc_reverse s.filteredProducts hn

/-- C5 at the view `[Shoe(5), Shirt(10)]`: the directive starts at `{null, null}`, the prices
are distinct, the first action gives `[Shoe, Shirt]` and the second its reverse. -/
theorem handleSort_price_cycle_witness :
    cycleExample.sortOrder = { field := none, direction := none } ∧
    (cycleExample.filteredProducts.map (fun p => p.price)).Nodup ∧
    (handleSort cycleExample Field.price).filteredProducts
      = [mkProduct 1 "Shoe" 5, mkProduct 2 "Shirt" 10] ∧
    (handleSort (handleSort cycleExample Field.price) Field.price).filteredProducts
      = (handleSort cycleExample Field.price).filteredProducts.reverse :=
  ⟨by decide, by decide, by decide, (handleSort_price_cycle cycleExample (by decide)).2.2.2 (by decide)⟩

/-! ### Page change -/

/-- C6: with a page size of at least one, `handlePageChange(target)` leaves the whole state
unchanged when `target < 1` or `target > ceil(|filteredProducts| / itemsPerPage)`, in
particular for `target = 0` and for `target = totalPages + 1`; otherwise it sets
`currentPage` to `target` and changes nothing else. -/
theorem handlePageChange_frame (s : State) (target : Int) (h : 1 ≤ s.itemsPerPage) :
    ((target < 1 ∨ target > ⌈(s.filteredProducts.length : ℚ) / (s.itemsPerPage : ℚ)⌉) →
      handlePageChange s target = s) ∧
    (¬ (target < 1 ∨ target > ⌈(s.filteredProducts.length : ℚ) / (s.itemsPerPage : ℚ)⌉) →
      handlePageChange s target = { s with currentPage := target }) ∧
    handlePageChange s 0 = s ∧
    handlePageChange s (⌈(s.filteredProducts.length : ℚ) / (s.itemsPerPage : ℚ)⌉ + 1) = s := by
  have key : ∀ t : Int, handlePageChange s t =
      if t < 1 ∨ t > ⌈(s.filteredProducts.length : ℚ) / (s.itemsPerPage : ℚ)⌉ then s
      else { s with currentPage := t } := by
    intro t
    unfold handlePageChange
    rw [totalPages_eq_ceil _ _ h]
    simp only [Bool.or_eq_true, decide_eq_true_eq]
  refine ⟨?_, ?_, ?_, ?_⟩
  · intro ht
    rw [key, if_pos ht]
  · intro ht
    rw [key, if_neg ht]
  · rw [key, if_pos (Or.inl (by decide))]
  · rw [key, if_pos (Or.inr (by omega))]

/-- C6 at three products shown two per page (two pages): page 2 is accepted, pages 0 and 3
are ignored. -/
theorem handlePageChange_frame_witness :
    1 ≤ pagingExample.itemsPerPage ∧
    handlePageChange pagingExample 2 = { pagingExample with currentPage := 2 } ∧
    handlePageChange pagingExample 3 = pagingExample ∧
    handlePageChange pagingExample 0 = pagingExample :=
  ⟨by decide, by decide, by decide,
    (handlePageChange_frame pagingExample 0 (by decide)).2.2.1⟩

/-! ### Form validation -/

theorem createProduct_invalid (s : State) (form : FormInput) (response : Option Product)
    (h : filledIn form = false) :
    createProduct s form response = ⟨s, [validationNotice]⟩ := by
  unfold createProduct validationNotice
  unfold filledIn at h
  rcases hp : form.price with _ | p <;> rcases hc : form.categoryId with _ | c <;>
    simp_all
  intro h1 h2 h3 h4
  exact absurd (h (by simpa using h1) (by simpa using h3) h4) h2

theorem createProduct_filled (s : State) (form : FormInput) (response : Option Product)
    (h : filledIn form = true) :
    ∃ data : ProductData,
      data.title = trim form.title ∧ data.description = trim form.description ∧
      form.price = some data.price ∧ form.categoryId = some data.categoryId ∧
      createProduct s form response =
        match response with
        | some newProduct =>
          ⟨handleSearch
              { s with allProducts :=
                  attachCategory s.categories data.categoryId newProduct :: s.allProducts }
              s.searchInput,
            [Effect.remote (RemoteCall.createNewProduct data),
             Effect.notification "Product created successfully!" "success"]⟩
        | none =>
          ⟨s, [Effect.remote (RemoteCall.createNewProduct data),
               Effect.notification "Failed to create product" "error"]⟩ := by
  unfold filledIn at h
  rcases hp : form.price with _ | p <;> rcases hc : form.categoryId with _ | c <;>
    simp [hp, hc] at h
  obtain ⟨⟨⟨h1, h2⟩, h3⟩, h4⟩ := h
  refine ⟨{ title := trim form.title, price := p, description := trim form.description,
            categoryId := c,
            images := if trim form.imagesText ≠ "" then parseImages (trim form.imagesText)
                      else [placeholderImage] }, rfl, rfl, rfl, rfl, ?_⟩
  unfold createProduct attachCategory
  simp only [hp, hc]
  rw [if_neg (by simp [h1, h2, h3, h4])]

theorem saveProduct_invalid (s : State) (form : FormInput) (response : Option Product)
    (k : Int) (hk : s.currentProductId = some k) (hk0 : k ≠ 0)
    (h : filledIn form = false) :
    saveProduct s form response = ⟨s, [validationNotice]⟩ := by
  unfold saveProduct validationNotice
  unfold filledIn at h
  simp only [hk, hk0, if_false]
  rcases hp : form.price with _ | p <;> rcases hc : form.categoryId with _ | c <;>
    simp_all
  intro h1 h2 h3 h4
  exact absurd (h (by simpa using h1) (by simpa using h3) h4) h2

theorem saveProduct_filled (s : State) (form : FormInput) (response : Option Product)
    (k : Int) (hk : s.currentProductId = some k) (hk0 : k ≠ 0)
    (h : filledIn form = true) :
    ∃ data : ProductData,
      data.title = trim form.title ∧ data.description = trim form.description ∧
      form.price = some data.price ∧ form.categoryId = some data.categoryId ∧
      saveProduct s form response =
        match response with
        | some _ =>
          ⟨handleSearch (applyUpdate s k data) s.searchInput,
            [Effect.remote (RemoteCall.updateProduct k data),
             Effect.notification "Product updated successfully!" "success"]⟩
        | none =>
          ⟨s, [Effect.remote (RemoteCall.updateProduct k data),
               Effect.notification "Failed to update product" "error"]⟩ := by
  unfold filledIn at h
  rcases hp : form.price with _ | p <;> rcases hc : form.categoryId with _ | c <;>
    simp [hp, hc] at h
  obtain ⟨⟨⟨h1, h2⟩, h3⟩, h4⟩ := h
  refine ⟨{ title := trim form.title, price := p, description := trim form.description,
            categoryId := c,
            images :=
              if (if trim form.imagesText ≠ "" then parseImages (trim form.imagesText)
                  else []).length > 0
              then (if trim form.imagesText ≠ "" then parseImages (trim form.imagesText)
                    else [])
              else [placeholderImage] }, rfl, rfl, rfl, rfl, ?_⟩
  unfold saveProduct
  simp only [hk, hk0, if_false, hp, hc]
  rw [if_neg (by simp [h1, h2, h3, h4])]

theorem saveProduct_unselected (s : State) (form : FormInput) (response : Option Product)
    (h : s.currentProductId = none ∨ s.currentProductId = some 0) :
    saveProduct s form response = ⟨s, []⟩ := by
  unfold saveProduct
  rcases h with h | h <;> simp [h]

/-- C7 fails on the code: with two categories loaded and product 2 open for editing, a
complete submission whose price is -5 does not satisfy the condition of the specification,
yet `saveProduct` issues the update request with price -5 and `createProduct` the create
request, with no validation notice; after a successful update the product is kept with
price -5. -/
theorem negative_price_submission_is_sent :
    ¬ strictlyValid negativePriceForm ∧
    (saveProduct catalogExample negativePriceForm none).effects
      = [Effect.remote (RemoteCall.updateProduct 2
          { title := "Hat", price := -5, description := "A hat", categoryId := 1,
            images := [placeholderImage] }),
         Effect.notification "Failed to update product" "error"] ∧
    (createProduct catalogExample negativePriceForm none).effects
      = [Effect.remote (RemoteCall.createNewProduct
          { title := "Hat", price := -5, description := "A hat", categoryId := 1,
            images := [placeholderImage] }),
         Effect.notification "Failed to create product" "error"] ∧
    validationNotice ∉ (saveProduct catalogExample negativePriceForm none).effects ∧
    validationNotice ∉ (createProduct catalogExample negativePriceForm none).effects ∧
    (saveProduct catalogExample negativePriceForm
        (some (mkProduct 2 "Hat" (-5)))).state.allProducts.map (fun p => p.price)
      = [10, -5, 5] := by
  refine ⟨?_, by decide, by decide, by decide, by decide, by decide⟩
  intro h
  obtain ⟨_, _, _, p, hp, hpos⟩ := h
  have e : p = -5 := (Option.some.inj hp).symm
  rw [e] at hpos
  exact absurd hpos (by norm_num)

/-- Every submission that meets the condition of the specification passes the check of the
code. -/
theorem filledIn_of_strictlyValid (form : FormInput) (h : strictlyValid form) :
    filledIn form = true := by
  obtain ⟨h1, h2, ⟨c, hc, hcpos⟩, ⟨p, hp, hppos⟩⟩ := h
  unfold filledIn
  rw [hc, hp]
  have hc0 : c ≠ 0 := by omega
  have hp0 : p ≠ 0 := ne_of_gt hppos
  simp [h1, h2, hc0, hp0]

/-- The form check as the code performs it: `createProduct` issues the create request
exactly when the trimmed title and description are non-empty and the parsed `categoryId` and
price are numbers other than zero; every other submission ends with the notice "Please fill
in all required fields", no remote call and the state unchanged. The same holds for
`saveProduct` whenever a product with a non-zero id is open in the detail dialog. The check
does not look at the sign of a number. -/
theorem submission_validation (s : State) (form : FormInput) (response : Option Product) :
    (issuesRemoteCall (createProduct s form response) = true ↔ filledIn form = true) ∧
    (filledIn form = false → createProduct s form response = ⟨s, [validationNotice]⟩) ∧
    (∀ k : Int, s.currentProductId = some k → k ≠ 0 →
      (issuesRemoteCall (saveProduct s form response) = true ↔ filledIn form = true) ∧
      (filledIn form = false → saveProduct s form response = ⟨s, [validationNotice]⟩)) := by
  refine ⟨⟨?_, ?_⟩, createProduct_invalid s form response, ?_⟩
  · intro h
    by_contra hf
    rw [createProduct_invalid s form response (by simpa using hf)] at h
    simp [issuesRemoteCall, validationNotice, Effect.isRemote] at h
  · intro h
    obtain ⟨data, _, _, _, _, e⟩ := createProduct_filled s form response h
    rw [e]
    cases response <;> rfl
  · intro k hk hk0
    refine ⟨⟨?_, ?_⟩, saveProduct_invalid s form response k hk hk0⟩
    · intro h
      by_contra hf
      rw [saveProduct_invalid s form response k hk hk0 (by simpa using hf)] at h
      simp [issuesRemoteCall, validationNotice, Effect.isRemote] at h
    · intro h
      obtain ⟨data, _, _, _, _, e⟩ := saveProduct_filled s form response k hk hk0 h
      rw [e]
      cases response <;> rfl

/-- The form check at a submission with an empty title, for both handlers: the check
fails, the notice is shown, the state is unchanged and no request is issued. -/
theorem submission_validation_witness :
    editExample.currentProductId = some 1 ∧ filledIn emptyTitleForm = false ∧
    createProduct editExample emptyTitleForm none = ⟨editExample, [validationNotice]⟩ ∧
    saveProduct editExample emptyTitleForm none = ⟨editExample, [validationNotice]⟩ ∧
    issuesRemoteCall (createProduct editExample emptyTitleForm none) = false :=
  ⟨by decide, by decide,
    (submission_validation editExample emptyTitleForm none).2.1 (by decide),
    ((submission_validation editExample emptyTitleForm none).2.2 1 (by decide) (by decide)).2
      (by decide),
    by decide⟩

/-! ### Reconciliation after update and create -/

theorem applyUpdate_spec (s : State) (k : Int) (data : ProductData)
    (hp : ∃ p ∈ s.allProducts, p.id = k) :
    ∃ old new : Product,
      s.allProducts[s.allProducts.findIdx (fun p => p.id = k)]? = some old ∧
      old.id = k ∧
      applyUpdate s k data =
        { s with allProducts :=
            s.allProducts.set (s.allProducts.findIdx (fun p => p.id = k)) new } ∧
      new.id = old.id ∧ new.extra = old.extra ∧
      new.title = data.title ∧ new.price = data.price ∧
      new.description = data.description ∧ new.categoryId = some data.categoryId ∧
      new.images = data.images ∧
      ((∃ c ∈ s.categories, c.id = data.categoryId) →
        ∃ c ∈ s.categories, c.id = data.categoryId ∧ new.category = some c) ∧
      ((¬ ∃ c ∈ s.categories, c.id = data.categoryId) → new.category = old.category) := by
  have hex : ∃ x ∈ s.allProducts, (fun p : Product => decide (p.id = k)) x = true := by
    obtain ⟨p, hp1, hp2⟩ := hp
    exact ⟨p, hp1, by simpa using hp2⟩
  have hlt := List.findIdx_lt_length_of_exists hex
  have hget : s.allProducts[s.allProducts.findIdx (fun p => decide (p.id = k))]?
      = some (s.allProducts[s.allProducts.findIdx (fun p => decide (p.id = k))]) :=
    List.getElem?_eq_getElem hlt
  have hid : (s.allProducts[s.allProducts.findIdx (fun p => decide (p.id = k))]).id = k := by
    have := List.findIdx_getElem (w := hlt)
    simpa using this
  generalize s.allProducts[s.allProducts.findIdx (fun p => decide (p.id = k))] = old at hget hid
  rcases hc : s.categories.find? (fun c => decide (c.id = data.categoryId)) with _ | cat
  · refine ⟨old,
      { old with
        title := data.title, price := data.price,
        description := data.description, categoryId := some data.categoryId,
        images := data.images }, hget, hid, ?_, rfl, rfl, rfl, rfl, rfl, rfl, rfl, ?_, ?_⟩
    · unfold applyUpdate
      simp only [hget, hc]
    · intro ⟨c, hc1, hc2⟩
      rw [List.find?_eq_none] at hc
      exact absurd (by simpa using hc2) (hc c hc1)
    · intro _
      rfl
  · refine ⟨old,
      { old with
        title := data.title, price := data.price,
        description := data.description, categoryId := some data.categoryId,
        images := data.images, category := some cat },
      hget, hid, ?_, rfl, rfl, rfl, rfl, rfl, rfl, rfl, ?_, ?_⟩
    · unfold applyUpdate
      simp only [hget, hc]
    · intro _
      refine ⟨cat, List.mem_of_find?_eq_some hc, ?_, rfl⟩
      simpa using List.find?_some hc
    · intro hn
      exact absurd ⟨cat, List.mem_of_find?_eq_some hc, by simpa using List.find?_some hc⟩ hn

theorem attachCategory_spec (categories : List Category) (categoryId : Int) (p : Product) :
    ((∃ c ∈ categories, c.id = categoryId) →
      ∃ c ∈ categories, c.id = categoryId ∧
        attachCategory categories categoryId p = { p with category := some c }) ∧
    ((¬ ∃ c ∈ categories, c.id = categoryId) → attachCategory categories categoryId p = p) := by
  unfold attachCategory
  rcases hc : categories.find? (fun c => decide (c.id = categoryId)) with _ | cat
  · simp only [hc]
    constructor
    · intro ⟨c, hc1, hc2⟩
      rw [List.find?_eq_none] at hc
      exact absurd (by simpa using hc2) (hc c hc1)
    · intro _
      trivial
  · simp only [hc]
    constructor
    · intro _
      exact ⟨cat, List.mem_of_find?_eq_some hc, by simpa using List.find?_some hc, rfl⟩
    · intro hn
      exact absurd ⟨cat, List.mem_of_find?_eq_some hc, by simpa using List.find?_some hc⟩ hn

theorem saveProduct_success_inv (s : State) (form : FormInput) (response : Option Product)
    (k : Int) (hk : s.currentProductId = some k)
    (hs : Effect.notification "Product updated successfully!" "success"
      ∈ (saveProduct s form response).effects) :
    ∃ data : ProductData,
      data.title = trim form.title ∧ data.description = trim form.description ∧
      form.price = some data.price ∧ form.categoryId = some data.categoryId ∧
      saveProduct s form response =
        ⟨handleSearch (applyUpdate s k data) s.searchInput,
          [Effect.remote (RemoteCall.updateProduct k data),
           Effect.notification "Product updated successfully!" "success"]⟩ := by
  by_cases hk0 : k = 0
  · rw [saveProduct_unselected s form response (Or.inr (by rw [hk, hk0]))] at hs
    simp at hs
  · by_cases hf : filledIn form = true
    · obtain ⟨data, h1, h2, h3, h4, e⟩ := saveProduct_filled s form response k hk hk0 hf
      refine ⟨data, h1, h2, h3, h4, ?_⟩
      cases response with
      | none =>
        rw [e] at hs
        simp at hs
      | some r => exact e
    · rw [saveProduct_invalid s form response k hk hk0 (by simpa using hf)] at hs
      simp [validationNotice] at hs

theorem createProduct_success_inv (s : State) (form : FormInput) (response : Option Product)
    (hs : Effect.notification "Product created successfully!" "success"
      ∈ (createProduct s form response).effects) :
    ∃ (data : ProductData) (newProduct : Product),
      response = some newProduct ∧
      data.title = trim form.title ∧ data.description = trim form.description ∧
      form.price = some data.price ∧ form.categoryId = some data.categoryId ∧
      createProduct s form response =
        ⟨handleSearch
            { s with allProducts :=
                attachCategory s.categories data.categoryId newProduct :: s.allProducts }
            s.searchInput,
          [Effect.remote (RemoteCall.createNewProduct data),
           Effect.notification "Product created successfully!" "success"]⟩ := by
  by_cases hf : filledIn form = true
  · obtain ⟨data, h1, h2, h3, h4, e⟩ := createProduct_filled s form response hf
    cases response with
    | none =>
      rw [e] at hs
      simp at hs
    | some r => exact ⟨data, r, rfl, h1, h2, h3, h4, e⟩
  · rw [createProduct_invalid s form response (by simpa using hf)] at hs
    simp [validationNotice] at hs

/-- C8: after a successful `saveProduct` for an open product id `k` present in `allProducts`,
the first entry with id `k` keeps its position; its title, price, description, `categoryId`
and images are those of the submitted update data, its id and its other properties are
unchanged, its category is a loaded category whose id is the submitted `categoryId` when
there is one (and unchanged otherwise); every other entry of `allProducts` is unchanged. -/
theorem saveProduct_success_merge (s : State) (form : FormInput) (response : Option Product)
    (k : Int) (hk : s.currentProductId = some k)
    (hs : Effect.notification "Product updated successfully!" "success"
      ∈ (saveProduct s form response).effects)
    (hp : ∃ p ∈ s.allProducts, p.id = k) :
    ∃ (data : ProductData) (old new : Product),
      (saveProduct s form response).effects =
        [Effect.remote (RemoteCall.updateProduct k data),
         Effect.notification "Product updated successfully!" "success"] ∧
      s.allProducts[s.allProducts.findIdx (fun p => p.id = k)]? = some old ∧
      old.id = k ∧
      (∀ j, j < s.allProducts.findIdx (fun p => p.id = k) →
        ∀ q, s.allProducts[j]? = some q → q.id ≠ k) ∧
      (saveProduct s form response).state.allProducts.length = s.allProducts.length ∧
      (saveProduct s form response).state.allProducts[
          s.allProducts.findIdx (fun p => p.id = k)]? = some new ∧
      (∀ j, j ≠ s.allProducts.findIdx (fun p => p.id = k) →
        (saveProduct s form response).state.allProducts[j]? = s.allProducts[j]?) ∧
      new.id = old.id ∧ new.extra = old.extra ∧
      new.title = data.title ∧ new.price = data.price ∧
      new.description = data.description ∧ new.categoryId = some data.categoryId ∧
      new.images = data.images ∧
      ((∃ c ∈ s.categories, c.id = data.categoryId) →
        ∃ c ∈ s.categories, c.id = data.categoryId ∧ new.category = some c) ∧
      ((¬ ∃ c ∈ s.categories, c.id = data.categoryId) → new.category = old.category) := by
  obtain ⟨data, _, _, _, _, e⟩ := saveProduct_success_inv s form response k hk hs
  obtain ⟨old, new, h1, h2, h3, h4, h5, h6, h7, h8, h9, h10, h11, h12⟩ :=
    applyUpdate_spec s k data hp
  have hex : ∃ x ∈ s.allProducts, (fun p : Product => decide (p.id = k)) x = true := by
    obtain ⟨p, hp1, hp2⟩ := hp
    exact ⟨p, hp1, by simpa using hp2⟩
  have hlt := List.findIdx_lt_length_of_exists hex
  have hall : (saveProduct s form response).state.allProducts
      = s.allProducts.set (s.allProducts.findIdx (fun p => p.id = k)) new := by
    rw [e]
    simp only []
    rw [handleSearch_allProducts, h3]
  refine ⟨data, old, new, by rw [e], h1, h2, ?_, ?_, ?_, ?_,
    h4, h5, h6, h7, h8, h9, h10, h11, h12⟩
  · intro j hj q hq heq
    have hjl : j < s.allProducts.length := lt_trans hj hlt
    have hnot := List.not_of_lt_findIdx hj
    rw [List.getElem?_eq_getElem hjl] at hq
    have hq2 := Option.some.inj hq
    rw [hq2] at hnot
    simp [heq] at hnot
  · rw [hall, List.length_set]
  · rw [hall, List.getElem?_set_self hlt]
  · intro j hj
    rw [hall, List.getElem?_set_ne (Ne.symm hj)]

/-- C8 at three loaded products with product 2 open: the update of "Pants" to price 25 and
category 1 succeeds and rewrites the second entry only. -/
theorem saveProduct_success_merge_witness :
    catalogExample.currentProductId = some 2 ∧
    Effect.notification "Product updated successfully!" "success"
      ∈ (saveProduct catalogExample pantsForm (some (mkProduct 2 "Pants" 25))).effects ∧
    (saveProduct catalogExample pantsForm (some (mkProduct 2 "Pants" 25))).state.allProducts
      = [mkProduct 1 "Shirt" 10,
         { mkProduct 2 "Pants" 25 with
           description := "Blue", category := some { id := 1, name := "Clothes" },
           images := [placeholderImage], categoryId := some 1 },
         mkProduct 3 "Shoe" 5] ∧
    (saveProduct catalogExample pantsForm
      (some (mkProduct 2 "Pants" 25))).state.allProducts.length
      = catalogExample.allProducts.length := by
  obtain ⟨data, old, new, h⟩ :=
    saveProduct_success_merge catalogExample pantsForm (some (mkProduct 2 "Pants" 25)) 2
      (by decide) (by decide) (by decide)
  exact ⟨by decide, by decide, by decide, h.2.2.2.2.1⟩

/-- C9: after a successful `createProduct`, `allProducts` is the returned product, with its
category replaced by a loaded category whose id is the submitted `categoryId` when there is
one, followed by the previous `allProducts` in unchanged order; the state is the one
`handleSearch` produces from the search box text on the new `allProducts`, so
`filteredProducts` is its re-derivation and `currentPage` is 1. -/
theorem createProduct_success_prepend (s : State) (form : FormInput)
    (response : Option Product)
    (hs : Effect.notification "Product created successfully!" "success"
      ∈ (createProduct s form response).effects) :
    ∃ (data : ProductData) (newProduct stored : Product),
      response = some newProduct ∧
      (createProduct s form response).effects =
        [Effect.remote (RemoteCall.createNewProduct data),
         Effect.notification "Product created successfully!" "success"] ∧
      form.categoryId = some data.categoryId ∧
      ((∃ c ∈ s.categories, c.id = data.categoryId) →
        ∃ c ∈ s.categories, c.id = data.categoryId ∧
          stored = { newProduct with category := some c }) ∧
      ((¬ ∃ c ∈ s.categories, c.id = data.categoryId) → stored = newProduct) ∧
      (createProduct s form response).state.allProducts = stored :: s.allProducts ∧
      (createProduct s form response).state
        = handleSearch { s with allProducts := stored :: s.allProducts } s.searchInput ∧
      (createProduct s form response).state.filteredProducts
        = rederive (stored :: s.allProducts) s.searchInput s.sortOrder ∧
      (createProduct s form response).state.currentPage = 1 := by
  obtain ⟨data, newProduct, hr, _, _, _, h4, e⟩ := createProduct_success_inv s form response hs
  have hspec := attachCategory_spec s.categories data.categoryId newProduct
  refine ⟨data, newProduct, attachCategory s.categories data.categoryId newProduct, hr,
    by rw [e], h4, hspec.1, hspec.2, ?_, by rw [e], ?_, ?_⟩
  · rw [e]
    simp only []
    rw [handleSearch_allProducts]
  · rw [e]
    simp only []
    rw [handleSearch_filtered]
  · rw [e]
    simp only []
    rw [handleSearch_currentPage]

/-- C9 at three loaded products: creating "Hat" in category 2 succeeds, the new product is
stored first with the loaded category attached, and the page is reset to 1. -/
theorem createProduct_success_prepend_witness :
    Effect.notification "Product created successfully!" "success"
      ∈ (createProduct catalogExample hatForm (some (mkProduct 4 "Hat" 7))).effects ∧
    (createProduct catalogExample hatForm (some (mkProduct 4 "Hat" 7))).state.allProducts
      = { mkProduct 4 "Hat" 7 with category := some { id := 2, name := "Shoes" } }
        :: catalogExample.allProducts ∧
    (createProduct catalogExample hatForm (some (mkProduct 4 "Hat" 7))).state.currentPage
      = 1 := by
  obtain ⟨data, newProduct, stored, h⟩ :=
    createProduct_success_prepend catalogExample hatForm (some (mkProduct 4 "Hat" 7))
      (by decide)
  exact ⟨by decide, by decide, h.2.2.2.2.2.2.2.2⟩

/-- C10: when the request of `showDetailModal` fails, `allProducts`, `filteredProducts`,
`currentPage`, `itemsPerPage` and `sortOrder` are unchanged and the alert "Failed to load
product details" is shown; when `saveProduct` or `createProduct` issues its request and the
request fails, the state is unchanged and the error notice "Failed to update product" or
"Failed to create product" is shown. -/
theorem remote_failure_frame (s : State) :
    (∀ productId : Int,
      collectionState (showDetailModal s productId none).state = collectionState s ∧
      Effect.modalAlert "Failed to load product details"
        ∈ (showDetailModal s productId none).effects) ∧
    (∀ form : FormInput, issuesRemoteCall (saveProduct s form none) = true →
      (saveProduct s form none).state = s ∧
      Effect.notification "Failed to update product" "error"
        ∈ (saveProduct s form none).effects) ∧
    (∀ form : FormInput, issuesRemoteCall (createProduct s form none) = true →
      (createProduct s form none).state = s ∧
      Effect.notification "Failed to create product" "error"
        ∈ (createProduct s form none).effects) := by
  refine ⟨?_, ?_, ?_⟩
  · intro productId
    simp [showDetailModal, collectionState]
  · intro form h
    rcases hk : s.currentProductId with _ | k
    · rw [saveProduct_unselected s form none (Or.inl hk)] at h
      simp [issuesRemoteCall] at h
    · by_cases hk0 : k = 0
      · rw [saveProduct_unselected s form none (Or.inr (by rw [hk, hk0]))] at h
        simp [issuesRemoteCall] at h
      · by_cases hf : filledIn form = true
        · obtain ⟨data, _, _, _, _, e⟩ := saveProduct_filled s form none k hk hk0 hf
          rw [e]
          simp
        · rw [saveProduct_invalid s form none k hk hk0 (by simpa using hf)] at h
          simp [issuesRemoteCall, validationNotice, Effect.isRemote] at h
  · intro form h
    by_cases hf : filledIn form = true
    · obtain ⟨data, _, _, _, _, e⟩ := createProduct_filled s form none hf
      rw [e]
      simp
    · rw [createProduct_invalid s form none (by simpa using hf)] at h
      simp [issuesRemoteCall, validationNotice, Effect.isRemote] at h

/-- C10 at three loaded products: both a failing update and a failing create issue their
request and leave the state as it was. -/
theorem remote_failure_frame_witness :
    issuesRemoteCall (saveProduct catalogExample pantsForm none) = true ∧
    (saveProduct catalogExample pantsForm none).state = catalogExample ∧
    issuesRemoteCall (createProduct catalogExample hatForm none) = true ∧
    (createProduct catalogExample hatForm none).state = catalogExample :=
  ⟨by decide,
    ((remote_failure_frame catalogExample).2.1 pantsForm (by decide)).1,
    by decide,
    ((remote_failure_frame catalogExample).2.2 hatForm (by decide)).1⟩

/-! ### Image lists -/

theorem saveProduct_sends_expectedImages (s : State) (form : FormInput)
    (response : Option Product) (k : Int) (data : ProductData)
    (h : Effect.remote (RemoteCall.updateProduct k data)
      ∈ (saveProduct s form response).effects) :
    data.images = expectedImages form.imagesText := by
  have himg : (if (if trim form.imagesText ≠ "" then parseImages (trim form.imagesText)
        else []).length > 0
      then (if trim form.imagesText ≠ "" then parseImages (trim form.imagesText) else [])
      else [placeholderImage]) = expectedImages form.imagesText := by
    unfold expectedImages
    by_cases ht : trim form.imagesText = ""
    · rw [ht]
      decide
    · simp only [ne_eq, ht, not_false_eq_true, if_true]
      cases parseImages (trim form.imagesText) <;> simp
  unfold saveProduct at h
  rcases hk : s.currentProductId with _ | c
  · simp [hk] at h
  · by_cases hc0 : c = 0
    · simp [hk, hc0] at h
    · rcases hp : form.price with _ | p <;> rcases hcat : form.categoryId with _ | cat
      · simp [hk, hc0, hp, hcat] at h
      · simp [hk, hc0, hp, hcat] at h
      · simp [hk, hc0, hp, hcat] at h
      · simp only [hk, hc0, hp, hcat, if_false] at h
        split at h
        · simp at h
        · cases response with
          | none =>
            simp at h
            rw [h.2, ← himg]
            by_cases ht : trim form.imagesText = "" <;> simp [ht]
          | some r =>
            simp at h
            rw [h.2, ← himg]
            by_cases ht : trim form.imagesText = "" <;> simp [ht]

/-- C11 fails on `createProduct`: for the image text `" , ,"` (commas and blanks only) the
create request carries an empty images list, where the specification asks for the placeholder
alone; `saveProduct` on the same form sends the placeholder. -/
theorem createProduct_blank_images_sends_empty :
    (createProduct catalogExample blankImagesForm none).effects
      = [Effect.remote (RemoteCall.createNewProduct
          { title := "Hat", price := 7, description := "Warm", categoryId := 2,
            images := [] }),
         Effect.notification "Failed to create product" "error"] ∧
    expectedImages blankImagesForm.imagesText = [placeholderImage] ∧
    (saveProduct catalogExample blankImagesForm none).effects
      = [Effect.remote (RemoteCall.updateProduct 2
          { title := "Hat", price := 7, description := "Warm", categoryId := 2,
            images := [placeholderImage] }),
         Effect.notification "Failed to update product" "error"] := by
  decide

/-! ### Sort idempotence -/

theorem arraySort_idem (f : Field) (d : Direction) (l : List Product) :
    arraySort (compareFn f d) (arraySort (compareFn f d) l) = arraySort (compareFn f d) l := by
  unfold arraySort
  apply List.Sorted.insertionSort_eq
  cases d
  · haveI : IsTotal Product (fun a b => compareFn f Direction.asc a b ≤ 0) :=
      ⟨fun a b => by simpa only [compareFn_asc_le] using keyLE_total f a b⟩
    haveI : IsTrans Product (fun a b => compareFn f Direction.asc a b ≤ 0) :=
      ⟨fun a b c => by simpa only [compareFn_asc_le] using keyLE_trans f a b c⟩
    exact List.sorted_insertionSort (fun a b => compareFn f Direction.asc a b ≤ 0) l
  · haveI : IsTotal Product (fun a b => compareFn f Direction.desc a b ≤ 0) :=
      ⟨fun a b => by simpa only [compareFn_desc_le] using keyLE_total f b a⟩
    haveI : IsTrans Product (fun a b => compareFn f Direction.desc a b ≤ 0) :=
      ⟨fun a b c h1 h2 => by
        rw [compareFn_desc_le] at *
        exact keyLE_trans f c b a h2 h1⟩
    exact List.sorted_insertionSort (fun a b => compareFn f Direction.desc a b ≤ 0) l

/-- C14: running `applySorting` twice in a row gives the same state, and so the same order
of `filteredProducts`, as running it once; under an active directive `{field, direction}`
both are the sort of the previous view by that directive. -/
theorem applySorting_idempotent (s : State) :
    applySorting (applySorting s) = applySorting s ∧
    ∀ (f : Field) (d : Direction), s.sortOrder = { field := some f, direction := some d } →
      (applySorting (applySorting s)).filteredProducts
        = arraySort (compareFn f d) s.filteredProducts := by
  have key : applySorting (applySorting s) = applySorting s := by
    rcases hf : s.sortOrder.field with _ | f
    · simp [applySorting, hf]
    · rcases hd : s.sortOrder.direction with _ | d
      · simp [applySorting, hf, hd]
      · simp [applySorting, hf, hd, arraySort_idem]
  refine ⟨key, ?_⟩
  intro f d h
  rw [key]
  unfold applySorting
  rw [h]

/-- C14 at the view `[Shirt(10), Shoe(5)]` with the directive price ascending: sorting twice
gives `[Shoe(5), Shirt(10)]`, the result of sorting once. -/
theorem applySorting_idempotent_witness :
    sortExample.sortOrder = { field := some Field.price, direction := some Direction.asc } ∧
    (applySorting (applySorting sortExample)).filteredProducts
      = [mkProduct 3 "Shoe" 5, mkProduct 1 "Shirt" 10] ∧
    (applySorting (applySorting sortExample)).filteredProducts
      = arraySort (compareFn Field.price Direction.asc) sortExample.filteredProducts :=
  ⟨by decide, by decide,
    (applySorting_idempotent sortExample).2 Field.price Direction.asc (by decide)⟩

/-! ### Pagination control -/

theorem pageWindow_spec (cp tp : Int) (h2 : 2 ≤ tp) (h1 : 1 ≤ cp) (hle : cp ≤ tp) :
    (pageWindow cp tp).2 - (pageWindow cp tp).1 + 1 = min 5 tp ∧
    1 ≤ (pageWindow cp tp).1 ∧ (pageWindow cp tp).2 ≤ tp ∧
    (pageWindow cp tp).1 ≤ cp ∧ cp ≤ (pageWindow cp tp).2 := by
  simp only [pageWindow]
  split_ifs <;> omega

theorem renderPagination_eq (s : State) (h : 1 ≤ s.itemsPerPage) :
    renderPagination s = some (paginationItems s.currentPage
      ⌈(s.filteredProducts.length : ℚ) / (s.itemsPerPage : ℚ)⌉) := by
  unfold renderPagination
  rw [totalPages_eq_ceil _ _ h]
  rfl

/-- C12: for `totalPages ≤ 1` `renderPagination` emits nothing. For `totalPages ≥ 2` and
`1 ≤ currentPage ≤ totalPages` the window `[startPage, endPage]` has exactly
`min(5, totalPages)` pages, lies within `1 .. totalPages` and contains `currentPage`, and the
entries are, in order: the previous button, disabled exactly when `currentPage = 1`; a link
to page 1 iff `startPage > 1`, followed by an ellipsis iff `startPage > 2`; the pages of the
window, the current one active; an ellipsis iff `endPage < totalPages - 1`, then a link to
`totalPages` iff `endPage < totalPages`; the next button, disabled exactly when
`currentPage = totalPages`. -/
theorem renderPagination_window (cp tp : Int) :
    (tp ≤ 1 → paginationItems cp tp = []) ∧
    (2 ≤ tp → 1 ≤ cp → cp ≤ tp →
      (pageWindow cp tp).2 - (pageWindow cp tp).1 + 1 = min 5 tp ∧
      1 ≤ (pageWindow cp tp).1 ∧ (pageWindow cp tp).2 ≤ tp ∧
      (pageWindow cp tp).1 ≤ cp ∧ cp ≤ (pageWindow cp tp).2 ∧
      paginationItems cp tp =
        [PageItem.previous (decide (cp = 1)) (cp - 1)]
        ++ (if 1 < (pageWindow cp tp).1 then [PageItem.jump 1] else [])
        ++ (if 2 < (pageWindow cp tp).1 then [PageItem.ellipsis] else [])
        ++ (List.range (min 5 tp).toNat).map
            (fun j : Nat => PageItem.number ((pageWindow cp tp).1 + (j : Int))
              (decide ((pageWindow cp tp).1 + (j : Int) = cp)))
        ++ (if (pageWindow cp tp).2 < tp - 1 then [PageItem.ellipsis] else [])
        ++ (if (pageWindow cp tp).2 < tp then [PageItem.jump tp] else [])
        ++ [PageItem.next (decide (cp = tp)) (cp + 1)] ∧
      (PageItem.jump 1 ∈ paginationItems cp tp ↔ 1 < (pageWindow cp tp).1) ∧
      (PageItem.jump tp ∈ paginationItems cp tp ↔ (pageWindow cp tp).2 < tp)) := by
  constructor
  · intro h
    simp [paginationItems, h]
  · intro h2 h1 hle
    obtain ⟨w1, w2, w3, w4, w5⟩ := pageWindow_spec cp tp h2 h1 hle
    have hnot : ¬ tp ≤ 1 := by omega
    have heq : paginationItems cp tp =
        [PageItem.previous (decide (cp = 1)) (cp - 1)]
        ++ (if 1 < (pageWindow cp tp).1 then [PageItem.jump 1] else [])
        ++ (if 2 < (pageWindow cp tp).1 then [PageItem.ellipsis] else [])
        ++ (List.range (min 5 tp).toNat).map
            (fun j : Nat => PageItem.number ((pageWindow cp tp).1 + (j : Int))
              (decide ((pageWindow cp tp).1 + (j : Int) = cp)))
        ++ (if (pageWindow cp tp).2 < tp - 1 then [PageItem.ellipsis] else [])
        ++ (if (pageWindow cp tp).2 < tp then [PageItem.jump tp] else [])
        ++ [PageItem.next (decide (cp = tp)) (cp + 1)] := by
      simp only [paginationItems, hnot, if_false, w1]
      generalize (pageWindow cp tp).1 = a at *
      generalize (pageWindow cp tp).2 = b at *
      by_cases ha1 : 1 < a <;> by_cases ha2 : 2 < a <;> by_cases hb1 : b < tp <;>
        by_cases hb2 : b < tp - 1 <;>
        first
          | omega
          | simp [ha1, ha2, hb1, hb2]
    refine ⟨w1, w2, w3, w4, w5, heq, ?_, ?_⟩
    · rw [heq]
      have : tp ≠ 1 := by omega
      by_cases ha1 : 1 < (pageWindow cp tp).1
      · simp [ha1]
      · simp only [ha1, if_false]
        simp
        intro _
        omega
    · rw [heq]
      have : tp ≠ 1 := by omega
      by_cases hb1 : (pageWindow cp tp).2 < tp <;> simp [hb1, this]

/-- C12 at page 5 of 10 and at page 1 of 3: the window of page 5 is `3 .. 7` between both
links and both ellipses, and three pages are shown without links or ellipses. -/
theorem renderPagination_window_witness :
    paginationItems 5 10
      = [PageItem.previous false 4, PageItem.jump 1, PageItem.ellipsis,
         PageItem.number 3 false, PageItem.number 4 false, PageItem.number 5 true,
         PageItem.number 6 false, PageItem.number 7 false,
         PageItem.ellipsis, PageItem.jump 10, PageItem.next false 6] ∧
    paginationItems 1 3
      = [PageItem.previous true 0, PageItem.number 1 true, PageItem.number 2 false,
         PageItem.number 3 false, PageItem.next false 2] ∧
    paginationItems 1 1 = [] ∧
    (pageWindow 5 10).2 - (pageWindow 5 10).1 + 1 = min 5 10 ∧
    (PageItem.jump 1 ∈ paginationItems 5 10 ↔ 1 < (pageWindow 5 10).1) :=
  ⟨by decide, by decide, (renderPagination_window 1 1).1 (by decide),
    ((renderPagination_window 5 10).2 (by decide) (by decide) (by decide)).1,
    ((renderPagination_window 5 10).2 (by decide) (by decide) (by decide)).2.2.2.2.2.2.1⟩

/-! ### CSV export -/

theorem joinWith_cons (separator h : String) (rows : List String) :
    joinWith separator (h :: rows)
      = h ++ rows.foldr (fun r rest => separator ++ r ++ rest) "" := by
  induction rows generalizing h with
  | nil => simp [joinWith]
  | cons r rest ih =>
    rw [joinWith, ih r]
    simp [String.append_assoc]

theorem joinWith_csvRow (numberToString : ℚ → String) (p : Product) :
    joinWith "," (csvRow numberToString p) = csvLine numberToString p := by
  simp only [csvRow, csvLine, joinWith, String.append_assoc]

theorem csvContent_eq (numberToString : ℚ → String) (currentData : List Product) :
    csvContent numberToString currentData
      = "ID,Title,Price,Category,Description" ++
        currentData.foldr (fun p rest => "\n" ++ csvLine numberToString p ++ rest) "" := by
  unfold csvContent
  simp only []
  rw [joinWith_cons]
  have hh : joinWith "," ["ID", "Title", "Price", "Category", "Description"]
      = "ID,Title,Price,Category,Description" := by decide
  rw [hh]
  congr 1
  induction currentData with
  | nil => rfl
  | cons p rest ih =>
    simp only [List.map_cons, List.foldr_cons]
    rw [ih, joinWith_csvRow]

theorem escapeCSV_cons (c : Char) (cs : List Char) :
    escapeCSV (String.mk (c :: cs))
      = (if c = '"' then "\"\"" else String.singleton c) ++ escapeCSV (String.mk cs) := by
  unfold escapeCSV
  apply String.ext
  by_cases h : c = '"' <;> simp [h, String.singleton]

theorem escapeCSV_count (text : String) :
    (escapeCSV text).data.count '"' = 2 * text.data.count '"' := by
  unfold escapeCSV
  simp only []
  induction text.data with
  | nil => rfl
  | cons c cs ih =>
    rw [List.flatMap_cons, List.count_append, ih]
    by_cases h : c = '"'
    · subst h
      simp [List.count_cons]
      omega
    · have h2 : ¬ ('"' = c) := fun e => h e.symm
      simp [h, List.count_cons, h2]

/-- C13: for a non-empty current page, the CSV text built by `exportToCSV` is the header line
`ID,Title,Price,Category,Description` followed, for each row of the page in display order,
by a line break and the row: id, quoted title, unquoted price, quoted category name (or N/A)
and quoted description, joined by commas; `escapeCSV` replaces every double quote of a text
by two and leaves every other character as it is; and the state is unchanged. -/
theorem exportToCSV_text (numberToString : ℚ → String) (s : State)
    (h : getCurrentPageData s ≠ []) :
    (exportToCSV numberToString s).csv
      = some ("ID,Title,Price,Category,Description" ++
          (getCurrentPageData s).foldr
            (fun p rest => "\n" ++ csvLine numberToString p ++ rest) "") ∧
    (exportToCSV numberToString s).state = s ∧
    escapeCSV "" = "" ∧
    (∀ (c : Char) (cs : List Char),
      escapeCSV (String.mk (c :: cs))
        = (if c = '"' then "\"\"" else String.singleton c) ++ escapeCSV (String.mk cs)) ∧
    (∀ text : String, (escapeCSV text).data.count '"' = 2 * text.data.count '"') := by
  have hlen : ¬ (getCurrentPageData s).length = 0 := by
    intro h0
    exact h (List.length_eq_zero.mp h0)
  refine ⟨?_, ?_, by decide, escapeCSV_cons, escapeCSV_count⟩
  · unfold exportToCSV
    simp only [hlen, if_false]
    rw [csvContent_eq]
  · unfold exportToCSV
    simp only [hlen, if_false]

/-- C13 at a page of two products, the second with double quotes in its title and its
description. -/
theorem exportToCSV_text_witness :
    getCurrentPageData csvExample ≠ [] ∧
    (exportToCSV wholeNumberToString csvExample).csv
      = some ("ID,Title,Price,Category,Description\n" ++
              "1,\"Shirt\",10,\"N/A\",\"Plain\"\n" ++
              "2,\"The \"\"best\"\" shoe\",5,\"Shoes\",\"Says \"\"hi\"\"\"") ∧
    (exportToCSV wholeNumberToString csvExample).state = csvExample :=
  ⟨by decide, by decide,
    (exportToCSV_text wholeNumberToString csvExample (by decide)).2.1⟩

end ProductAdmin
